import Mathlib

/-!
Verification development for the mrt-server repository: a shallow embedding
of the reconciliation, normalization and snapshot code of the Taipei Metro
arrival/crowding backend, together with theorems about the claims of the
natural-language specification.

The JavaScript (and one Swift) sources are embedded as executable Lean
definitions.  JavaScript `undefined`/`null` string fields are modelled as
`Option String`; JavaScript NaN results of numeric parsing are modelled as
`none : Option Int`; JavaScript truthiness of strings (empty string is
falsy) is modelled explicitly by `jsTruthyS`.
-/

set_option autoImplicit false

namespace MRT

/-- JavaScript truthiness of a possibly-absent string: `undefined`, `null`
and the empty string are falsy, every other string is truthy. -/
def jsTruthyS (s : Option String) : Bool :=
  match s with
  | none => false
  | some str => str ≠ ""

/-- JavaScript `a || b` for a possibly-absent string with a string default. -/
def jsOrS (a : Option String) (b : String) : String :=
  if jsTruthyS a then a.getD "" else b

/-- JavaScript `a || b` for two possibly-absent strings. -/
def jsOrOptS (a b : Option String) : Option String :=
  if jsTruthyS a then a else b

/-- JavaScript `a || null` for a possibly-absent string: keeps only a truthy
string, mapping `undefined`, `null` and `""` to `null`. -/
def jsOrNullS (a : Option String) : Option String :=
  if jsTruthyS a then a else none

/-- JavaScript `String(x)` on a string field that may be `undefined`:
`String(undefined)` is the text `undefined`. -/
def jsStringOfOpt (o : Option String) : String :=
  match o with
  | none => "undefined"
  | some s => s

/-- Value of a list of decimal digit characters; `none` when the list is
empty (the JavaScript parseInt NaN case). -/
def digitsVal (cs : List Char) : Option Nat :=
  let ds := cs.takeWhile Char.isDigit
  if ds = [] then none
  else some (ds.foldl (fun a c => a * 10 + (c.toNat - Char.toNat '0')) 0)

/-- JavaScript `parseInt(s)` restricted to base 10: skip leading whitespace,
read an optional sign and then leading decimal digits; `none` models NaN.
(The hexadecimal `0x` special case of parseInt is not modelled; no feed
value in this code base is hexadecimal.) -/
def parseIntJS (s : String) : Option Int :=
  let cs := s.data.dropWhile Char.isWhitespace
  match cs with
  | '-' :: rest => (digitsVal rest).map (fun n => -(n : Int))
  | '+' :: rest => (digitsVal rest).map (fun n => (n : Int))
  | _ => (digitsVal cs).map (fun n => (n : Int))

/-- Position of the first occurrence of `pat` in `cs`, as a character index;
`none` when `pat` does not occur.  Models JavaScript `indexOf` on strings
(at character rather than UTF-16 granularity, which coincides for every
string this code base manipulates). -/
def subPos : List Char → List Char → Option Nat
  | _, [] => some 0
  | [], _ :: _ => none
  | c :: cs, p :: ps =>
    if (p :: ps).isPrefixOf (c :: cs) then some 0
    else (subPos cs (p :: ps)).map (· + 1)

/-- Substring containment test, models JavaScript `s.includes(pat)`. -/
def containsSub (s pat : String) : Bool :=
  (subPos s.data pat.data).isSome

/-- Character containment test, models JavaScript `s.includes(c)` for a
single character. -/
def containsChar (s : String) (c : Char) : Bool :=
  s.data.contains c

/-- Helper of splitOnChar: the accumulator holds the current chunk
reversed. -/
def splitCharAux (c : Char) : List Char → List Char → List String
  | [], acc => [String.mk acc.reverse]
  | x :: xs, acc =>
    if x = c then String.mk acc.reverse :: splitCharAux c xs []
    else splitCharAux c xs (x :: acc)

/-- JavaScript `s.split(c)` for a single-character separator. -/
def splitOnChar (c : Char) (s : String) : List String :=
  splitCharAux c s.data []

/-- JavaScript `s.trim()`. -/
def trimJS (s : String) : String :=
  String.mk (((s.data.dropWhile Char.isWhitespace).reverse.dropWhile Char.isWhitespace).reverse)

/-- JavaScript `s.toUpperCase()` (ASCII letters). -/
def toUpperJS (s : String) : String :=
  String.mk (s.data.map Char.toUpper)

/-- JavaScript `s.toLowerCase()` (ASCII letters). -/
def toLowerJS (s : String) : String :=
  String.mk (s.data.map Char.toLower)

/-- JavaScript `s.startsWith(pat)`. -/
def startsWithJS (s pat : String) : Bool :=
  pat.data.isPrefixOf s.data

/-- Position of the last occurrence of character `c`, models JavaScript
`lastIndexOf`. -/
def lastPos (cs : List Char) (c : Char) : Option Nat :=
  match cs with
  | [] => none
  | x :: xs =>
    match lastPos xs c with
    | some i => some (i + 1)
    | none => if x = c then some 0 else none

/- ===================== C3: countdown normalization =====================
Embeds the countdown handling inside updateData of src/unnamed/part_004
(lines 323-332):

    let seconds = 0;
    if (item.CountDown === '列車進站') {
      seconds = 0;
    } else if (item.CountDown && item.CountDown.includes(':')) {
      const parts = item.CountDown.split(':');
      seconds = parseInt(parts[0]) * 60 + parseInt(parts[1]);
    } else {
      seconds = 9999;
    }

`none : Option Int` in the result models a NaN seconds value (parseInt of a
non-numeric part). -/

/-- Countdown normalization of part_004 updateData; `none` models NaN. -/
def normalizeCountdown (countDown : Option String) : Option Int :=
  match countDown with
  | some s =>
    if s = "列車進站" then some 0
    else if s ≠ "" ∧ containsChar s ':' then
      match splitOnChar ':' s with
      | p0 :: p1 :: _ =>
        match parseIntJS p0, parseIntJS p1 with
        | some a, some b => some (a * 60 + b)
        | _, _ => none
      | _ => none
    else some 9999
  | none => some 9999

/- ===================== C4: crowd aggregation =====================
Embeds the `process` closure of fetchCrowdedness in src/unnamed/part_004
(lines 288-311) and the `levels` / `calculatedLevel` computed properties of
BackendCrowdData in src/unnamed/part_005 (lines 233-248). -/

/-- One train row of a crowding feed as consumed by part_004
fetchCrowdedness: a station id and the per-car fields Car1..Car6. -/
structure CrowdTrain where
  StationID : Option String
  Car1 : Option String
  Car2 : Option String
  Car3 : Option String
  Car4 : Option String
  Car5 : Option String
  Car6 : Option String
  deriving DecidableEq

/-- The Car1..Car6 fields in loop order. -/
def carFields (t : CrowdTrain) : List (Option String) :=
  [t.Car1, t.Car2, t.Car3, t.Car4, t.Car5, t.Car6]

/-- JavaScript `parseInt(v) || d`: NaN and 0 are falsy and fall back to
`d`. -/
def jsOrIntD (o : Option Int) (d : Int) : Int :=
  match o with
  | none => d
  | some n => if n = 0 then d else n

/-- The maxLevel loop of part_004 `process`: start at 1 and fold
`Math.max(maxLevel, parseInt(train[Car_i]) || 1)` over the truthy car
fields. -/
def maxCarLevel (t : CrowdTrain) : Int :=
  (carFields t).foldl
    (fun acc c =>
      if jsTruthyS c then max acc (jsOrIntD (parseIntJS (c.getD "")) 1) else acc)
    1

/-- The sequence of plain if statements assigning levelStr in part_004
`process` (note they are not chained with else). -/
def levelStrOf (maxLevel : Int) : String :=
  let l := "LOW"
  let l := if maxLevel = 2 then "MEDIUM" else l
  let l := if maxLevel = 3 then "HIGH" else l
  if maxLevel ≥ 4 then "FULL" else l

/-- Aggregated crowd label of one crowding row, as computed by part_004
`process`. -/
def crowdLabelOf (t : CrowdTrain) : String :=
  levelStrOf (maxCarLevel t)

/-- The crowdednessMap accumulation of part_004 `process`: a row is recorded
under its StationID when that id is truthy (later rows overwrite earlier
ones; the head of the association list is the most recent write). -/
def processCrowd (list : List CrowdTrain) (m : List (String × String)) :
    List (String × String) :=
  list.foldl
    (fun acc t =>
      if jsTruthyS t.StationID then (t.StationID.getD "", crowdLabelOf t) :: acc
      else acc)
    m

/-- Swift `Int(s)` : a strict whole-string signed decimal parse. -/
def swiftInt (s : String) : Option Int :=
  match s.data with
  | '-' :: rest =>
    if rest ≠ [] ∧ rest.all Char.isDigit then
      some (-(rest.foldl (fun a c => a * 10 + (c.toNat - Char.toNat '0')) 0 : Nat))
    else none
  | '+' :: rest =>
    if rest ≠ [] ∧ rest.all Char.isDigit then
      some ((rest.foldl (fun a c => a * 10 + (c.toNat - Char.toNat '0')) 0 : Nat))
    else none
  | cs =>
    if cs ≠ [] ∧ cs.all Char.isDigit then
      some ((cs.foldl (fun a c => a * 10 + (c.toNat - Char.toNat '0')) 0 : Nat))
    else none

/-- The decoded crowd record of the part_005 Swift client: the optional
CongestionLevel string and the six optional per-car level strings. -/
structure BackendCrowdData where
  congestionLevel : Option String
  level1 : Option String
  level2 : Option String
  level3 : Option String
  level4 : Option String
  level5 : Option String
  level6 : Option String
  deriving DecidableEq

/-- The `levels` computed property of part_005: drop absent fields, then
drop the ones that do not parse as integers. -/
def levelsOf (d : BackendCrowdData) : List Int :=
  (([d.level1, d.level2, d.level3, d.level4, d.level5, d.level6].filterMap id).filterMap swiftInt)

/-- The `calculatedLevel` computed property of part_005. -/
def calculatedLevel (d : BackendCrowdData) : String :=
  match d.congestionLevel with
  | some level => level
  | none =>
    match (levelsOf d).max? with
    | some maxVal =>
      if maxVal ≥ 4 then "FULL"
      else if maxVal = 3 then "HIGH"
      else if maxVal = 2 then "MEDIUM"
      else "LOW"
    | none => "UNKNOWN"

/-- The fixed ordinal-to-label table stated by the specification:
1 is lowest, 2 medium, 3 high, 4 and above highest.  This definition
follows the words of the spec and is compared against the code-side
aggregations. -/
def ordinalLabel (m : Int) : String :=
  if 4 ≤ m then "FULL"
  else if m = 3 then "HIGH"
  else if m = 2 then "MEDIUM"
  else "LOW"

/- ===================== C5: Wenhu directional matching =====================
Embeds the Wenhu (BR) station+direction matching of updateAll in
src/unnamed/part_001 (lines 71-148): normalizeStation, the wenhuMap build
from the BR crowding feed, the Wenhu classification of a track record, and
the composite-key lookup. -/

/-- One row of the BR (Wenhu) crowding feed as consumed by part_001. -/
structure BRWeightRow where
  TrainNumber : Option String
  StationName : Option String
  DU : Option String
  deriving DecidableEq

/-- One row of the track feed as consumed by part_001 updateAll.
DestinationName is accessed without a guard in the source, so it is
modelled as a plain string. -/
structure TrackRowP1 where
  TrainNumber : Option String
  StationName : Option String
  DestinationName : String
  LineId : Option String
  CountDown : Option String
  NowDateTime : Option String
  deriving DecidableEq

/-- `.replace(/^BR/i, "")` : drop a leading case-insensitive BR. -/
def dropBRHead (s : String) : String :=
  match s.data with
  | c1 :: c2 :: rest =>
    if (c1 = 'B' ∨ c1 = 'b') ∧ (c2 = 'R' ∨ c2 = 'r') then String.mk rest else s
  | _ => s

/-- `.replace(/站$/, "")` : drop one trailing station glyph. -/
def dropStationGlyph (s : String) : String :=
  match s.data.reverse with
  | '站' :: rest => String.mk rest.reverse
  | _ => s

/-- `.replace(/\s+/g, "")` : drop all whitespace. -/
def dropWS (s : String) : String :=
  String.mk (s.data.filter (fun c => ¬ c.isWhitespace))

/-- normalizeStation of part_001: empty for a falsy name, otherwise drop
the BR head, the trailing station glyph and all whitespace, in that
order. -/
def normalizeStation (name : Option String) : String :=
  if ¬ jsTruthyS name then "" else dropWS (dropStationGlyph (dropBRHead (name.getD "")))

/-- Direction key of a BR crowd row, from its two-character DU indicator:
a down indicator maps to the Nangang terminus, an up indicator to the Zoo
terminus, anything else to the empty (falsy) key. -/
def dirOfDU (du : String) : String :=
  if containsChar du '下' then "ToNangang"
  else if containsChar du '上' then "ToZoo"
  else ""

/-- Direction key of a track record, from which terminus name its
destination contains. -/
def dirOfDest (dest : String) : String :=
  if containsSub dest "南港" then "ToNangang"
  else if containsSub dest "動物園" then "ToZoo"
  else ""

/-- The trimmed train number string of a part_001 track row:
`String(t.TrainNumber || "").trim()`. -/
def trainNumP1 (t : TrackRowP1) : String :=
  trimJS (jsOrS t.TrainNumber "")

/-- The Wenhu classification of part_001: LineId BR, or a destination
naming the Zoo terminus, or a destination naming the Nangang exhibition
terminus together with an empty train number. -/
def isWenhu (t : TrackRowP1) : Bool :=
  t.LineId == some "BR" ||
    containsSub t.DestinationName "動物園" ||
    (containsSub t.DestinationName "南港展覽館" && trainNumP1 t == "")

/-- The composite station_direction key under which a BR crowd row is
indexed, when both components are truthy. -/
def crowdKeyOf (w : BRWeightRow) : Option String :=
  let cleanName := normalizeStation (some (jsOrS w.StationName ""))
  let dirKey := dirOfDU (jsOrS w.DU "")
  if cleanName ≠ "" ∧ dirKey ≠ "" then some (cleanName ++ "_" ++ dirKey) else none

/-- The composite station_direction key a Wenhu track record looks up, when
both components are truthy. -/
def trackKeyOf (t : TrackRowP1) : Option String :=
  let cleanStation := normalizeStation t.StationName
  let dirKey := dirOfDest t.DestinationName
  if cleanStation ≠ "" ∧ dirKey ≠ "" then some (cleanStation ++ "_" ++ dirKey) else none

/-- The wenhuMap build of part_001 updateAll: fold Map.set over the BR
crowd rows.  A later set for the same key overwrites an earlier one, which
a cons-and-first-lookup association list realizes. -/
def buildWenhuMap (wBr : List BRWeightRow) : List (String × BRWeightRow) :=
  wBr.foldl
    (fun m w =>
      match crowdKeyOf w with
      | some k => (k, w) :: m
      | none => m)
    []

/-- The Wenhu matching branch of part_001: resolve the composite key of the
track record and look it up in the wenhuMap. -/
def wenhuCrowdFor (t : TrackRowP1) (wBr : List BRWeightRow) : Option BRWeightRow :=
  let cleanStation := normalizeStation t.StationName
  let dirKey := dirOfDest t.DestinationName
  if cleanStation ≠ "" ∧ dirKey ≠ "" then
    (buildWenhuMap wBr).lookup (cleanStation ++ "_" ++ dirKey)
  else none

/- ===================== server.js: merge and station query =====================
Embeds mergeTrackAndWeight (src/server.js lines 425-446), the
stationIdToName table (lines 449-495) and trainsByStationId
(lines 498-564). -/

/-- One TrackInfo row as consumed by server.js. -/
structure TrackRow where
  TrainNumber : Option String
  StationName : Option String
  DestinationName : Option String
  CountDown : Option String
  NowDateTime : Option String
  deriving DecidableEq

/-- One CarWeight row as consumed by server.js. -/
structure WeightRow where
  TrainNumber : Option String
  StationID : Option String
  StationName : Option String
  deriving DecidableEq

/-- `row.TrainNumber != null ? String(row.TrainNumber).trim() : ""`. -/
def trimmedNum (o : Option String) : String :=
  match o with
  | some s => trimJS s
  | none => ""

/-- `String(row.TrainNumber).trim()` without a null guard (used in the two
find fallbacks of trainsByStationId): an absent field stringifies to the
text undefined. -/
def trimmedNumRaw (o : Option String) : String :=
  trimJS (jsStringOfOpt o)

/-- A merged train entry as produced by mergeTrackAndWeight. -/
structure MergedTrain where
  trainNumber : String
  stationName : Option String
  destinationName : Option String
  countDown : Option String
  nowDateTime : Option String
  rawTrack : TrackRow
  rawCrowd : Option WeightRow
  deriving DecidableEq

/-- The weightByTrain map build shared by mergeTrackAndWeight and
buildMergedTrainList: index the weight rows by trimmed train number,
skipping empty numbers; a later set overwrites an earlier one. -/
def weightByTrain (weightList : List WeightRow) : List (String × WeightRow) :=
  weightList.foldl
    (fun m row =>
      let num := trimmedNum row.TrainNumber
      if num ≠ "" then (num, row) :: m else m)
    []

/-- mergeTrackAndWeight of server.js (identical in shape to
buildMergedTrainList of the first server variant): one output entry per
track row, with the crowd row found under the exact trimmed train
number. -/
def mergeTrackAndWeight (trackList : List TrackRow) (weightList : List WeightRow) :
    List MergedTrain :=
  let m := weightByTrain weightList
  trackList.map (fun row =>
    let num := trimmedNum row.TrainNumber
    { trainNumber := num
      stationName := jsOrNullS row.StationName
      destinationName := jsOrNullS row.DestinationName
      countDown := jsOrNullS row.CountDown
      nowDateTime := jsOrNullS row.NowDateTime
      rawTrack := row
      rawCrowd := m.lookup num })

/-- The stationIdToName table of server.js. -/
def stationIdToName : List (String × String) :=
  [("BR01", "動物園"), ("BR02", "木柵"), ("BR03", "萬芳社區"), ("BR04", "萬芳醫院"),
   ("BR05", "辛亥"), ("BR06", "麟光"), ("BR07", "六張犁"), ("BR08", "科技大樓"),
   ("BR09", "大安"), ("BR10", "忠孝復興"), ("BR11", "南京復興"), ("BR12", "中山國中"),
   ("BR13", "松山機場"), ("BR14", "大直"), ("BR15", "劍南路"), ("BR16", "西湖"),
   ("BR17", "港墘"), ("BR18", "文德"), ("BR19", "內湖"), ("BR20", "大湖公園"),
   ("BR21", "葫洲"), ("BR22", "東湖"), ("BR23", "南港軟體園區"), ("BR24", "南港展覽館"),
   ("R02", "象山"), ("R03", "台北101/世貿"), ("R04", "信義安和"), ("R05", "大安"),
   ("R06", "大安森林公園"), ("R07", "東門"), ("R08", "中正紀念堂"), ("R09", "台大醫院"),
   ("R10", "台北車站"), ("R11", "中山"), ("R12", "雙連"), ("R13", "民權西路"),
   ("R14", "圓山"), ("R15", "劍潭"), ("R16", "士林"), ("R17", "芝山"),
   ("R18", "明德"), ("R19", "石牌"), ("R20", "唭哩岸"), ("R21", "奇岩"),
   ("R22", "北投"), ("R22A", "新北投"), ("R23", "復興崗"), ("R24", "忠義"),
   ("R25", "關渡"), ("R26", "竹圍"), ("R27", "紅樹林"), ("R28", "淡水"),
   ("G01", "新店"), ("G02", "新店區公所"), ("G03", "七張"), ("G03A", "小碧潭"),
   ("G04", "大坪林"), ("G05", "景美"), ("G06", "萬隆"), ("G07", "公館"),
   ("G08", "台電大樓"), ("G09", "古亭"), ("G10", "中正紀念堂"), ("G11", "小南門"),
   ("G12", "西門"), ("G13", "北門"), ("G14", "中山"), ("G15", "松江南京"),
   ("G16", "南京復興"), ("G17", "台北小巨蛋"), ("G18", "南京三民"), ("G19", "松山"),
   ("O01", "南勢角"), ("O02", "景安"), ("O03", "永安市場"), ("O04", "頂溪"),
   ("O05", "古亭"), ("O06", "東門"), ("O07", "忠孝新生"), ("O08", "松江南京"),
   ("O09", "行天宮"), ("O10", "中山國小"), ("O11", "民權西路"), ("O12", "大橋頭"),
   ("O13", "台北橋"), ("O14", "菜寮"), ("O15", "三重"), ("O16", "先嗇宮"),
   ("O17", "頭前庄"), ("O18", "新莊"), ("O19", "輔大"), ("O20", "丹鳳"), ("O21", "迴龍"),
   ("O50", "三重國小"), ("O51", "三和國中"), ("O52", "徐匯中學"), ("O53", "三民高中"),
   ("O54", "蘆洲"),
   ("BL01", "頂埔"), ("BL02", "永寧"), ("BL03", "土城"), ("BL04", "海山"),
   ("BL05", "亞東醫院"), ("BL06", "府中"), ("BL07", "板橋"), ("BL08", "新埔"),
   ("BL09", "江子翠"), ("BL10", "龍山寺"), ("BL11", "西門"), ("BL12", "台北車站"),
   ("BL13", "善導寺"), ("BL14", "忠孝新生"), ("BL15", "忠孝復興"), ("BL16", "忠孝敦化"),
   ("BL17", "國父紀念館"), ("BL18", "市政府"), ("BL19", "永春"), ("BL20", "後山埤"),
   ("BL21", "昆陽"), ("BL22", "南港"), ("BL23", "南港展覽館"),
   ("Y07", "大坪林"), ("Y08", "十四張"), ("Y09", "秀朗橋"), ("Y10", "景平"),
   ("Y11", "景安"), ("Y12", "中和"), ("Y13", "橋和"), ("Y14", "中原"),
   ("Y15", "板新"), ("Y16", "板橋"), ("Y17", "新埔民生"), ("Y18", "頭前庄"),
   ("Y19", "幸福"), ("Y20", "新北產業園區")]

/-- One entry of the trainsByStationId result. -/
structure StationTrainEntry where
  trainNumber : String
  stationId : String
  stationName : Option String
  destinationName : Option String
  countDown : Option String
  nowDateTime : Option String
  rawTrack : Option TrackRow
  rawCrowd : Option WeightRow
  deriving DecidableEq

/-- Case A of trainsByStationId: one entry per track row at the queried
station, with crowd looked up first in the per-station weight map and then,
as a fallback, among all weight rows of any station. -/
def stationCaseA (sid : String) (targetTrains : List TrackRow)
    (stationWeightMap : List (String × WeightRow)) (weightList : List WeightRow) :
    List StationTrainEntry :=
  targetTrains.map (fun track =>
    let num := trimmedNum track.TrainNumber
    let w0 := stationWeightMap.lookup num
    let w :=
      match w0 with
      | some x => some x
      | none => weightList.find? (fun row => trimmedNumRaw row.TrainNumber == num)
    { trainNumber := num
      stationId := sid
      stationName := track.StationName
      destinationName := track.DestinationName
      countDown := track.CountDown
      nowDateTime := track.NowDateTime
      rawTrack := some track
      rawCrowd := w })

/-- Case B of trainsByStationId: append an entry for every crowd row of the
station whose train is not yet in the result, borrowing destination,
countdown and timestamp from a track row with the same train number found
anywhere in the track list. -/
def stationCaseB (sid : String) (sName : Option String) (trackList : List TrackRow)
    (stationWeightData : List WeightRow) (acc : List StationTrainEntry) :
    List StationTrainEntry :=
  stationWeightData.foldl
    (fun acc w =>
      let num := trimmedNum w.TrainNumber
      match acc.find? (fun r => r.trainNumber == num) with
      | some _ => acc
      | none =>
        let t := trackList.find? (fun row => trimmedNumRaw row.TrainNumber == num)
        acc ++ [{ trainNumber := num
                  stationId := sid
                  stationName := jsOrOptS sName w.StationName
                  destinationName := jsOrNullS (t.bind (·.DestinationName))
                  countDown := jsOrNullS (t.bind (·.CountDown))
                  nowDateTime := jsOrNullS (t.bind (·.NowDateTime))
                  rawTrack := t
                  rawCrowd := some w }])
    acc

/-- trainsByStationId of server.js: uppercase the station id, resolve the
Chinese station name, collect the track rows at that station, the weight
rows with that station id, and merge via case A then case B. -/
def trainsByStationId (stationId : String) (trackList : List TrackRow)
    (weightList : List WeightRow) : List StationTrainEntry :=
  let sid := toUpperJS stationId
  let sName := stationIdToName.lookup sid
  let targetTrains :=
    match sName with
    | some n => trackList.filter (fun t => t.StationName == some n)
    | none => []
  let stationWeightData := weightList.filter (fun w => w.StationID == some sid)
  let weightMap :=
    stationWeightData.foldl
      (fun m w =>
        let num := trimmedNum w.TrainNumber
        if num ≠ "" then (num, w) :: m else m)
      []
  let mergedResults := stationCaseA sid targetTrains weightMap weightList
  stationCaseB sid sName trackList stationWeightData mergedResults

/- ===================== part_006: hybrid live/schedule reconciliation =====================
Embeds calculateData of src/unnamed/part_006 (lines 84-159).  The wall
clock enters only through currentMin, the minute-of-day of Taiwan local
time, which is taken as a parameter.  An ArrivalTime string HH:MM of the
timetable is embedded as its two numeric components (the source splits the
string on the colon and converts both parts with Number). -/

/-- One LiveBoard item as consumed by part_006 calculateData.  The Zh_tw
subfields of StationName and DestinationStationName are accessed without a
guard in the source and are modelled as plain strings. -/
structure LiveItem where
  StationID : String
  StationNameZh : String
  DestinationNameZh : String
  LineNO : Option String
  LineNo : Option String
  EstimateTime : Option Int
  deriving DecidableEq

/-- One timetable entry: the HH:MM arrival clock time, embedded as hour
and minute. -/
structure TimeEntry where
  arrH : Nat
  arrM : Nat
  deriving DecidableEq

/-- One station timetable as consumed by part_006 calculateData. -/
structure ScheduleStation where
  StationID : String
  StationNameZh : String
  DestinationNameZh : String
  LineNO : Option String
  LineNo : Option String
  Timetables : Option (List TimeEntry)
  deriving DecidableEq

/-- One entry of the reconciled finalData list. -/
structure FinalEntry where
  stationID : String
  stationName : String
  destination : String
  lineNo : String
  time : Int
  crowdLevel : String
  type : String
  deriving DecidableEq

/-- `s.match(/^([A-Z]+)/)?.[1] || "Unknown"` : the leading run of capital
letters of a station id, or Unknown when there is none. -/
def leadingUpper (s : String) : String :=
  let cs := s.data.takeWhile (fun c => 'A' ≤ c ∧ c ≤ 'Z')
  if cs = [] then "Unknown" else String.mk cs

/-- The line-number fixup shared by both loops of calculateData: LineNO,
else LineNo, else the leading capitals of the station id. -/
def lineNoFix (lNO lNo : Option String) (stationID : String) : String :=
  let l := jsOrOptS lNO lNo
  if ¬ jsTruthyS l ∧ stationID ≠ "" then leadingUpper stationID
  else jsOrS l ""

/-- The live entry built for one LiveBoard item: seconds from EstimateTime
(NaN collapsing to 0), floored to minutes. -/
def liveEntryOf (item : LiveItem) : FinalEntry :=
  let sec := item.EstimateTime.getD 0
  let min := Int.fdiv sec 60
  { stationID := item.StationID
    stationName := item.StationNameZh
    destination := item.DestinationNameZh
    lineNo := lineNoFix item.LineNO item.LineNo item.StationID
    time := min
    crowdLevel := "LOW"
    type := "live" }

/-- The schedule entry built for one timetable hit with minute distance
diff. -/
def schedEntryOf (st : ScheduleStation) (diff : Int) : FinalEntry :=
  { stationID := st.StationID
    stationName := st.StationNameZh
    destination := st.DestinationNameZh
    lineNo := lineNoFix st.LineNO st.LineNo st.StationID
    time := diff
    crowdLevel := "LOW"
    type := "schedule" }

/-- The duplicate check of part_006 calculateData: an already-collected
entry at the same station id and destination whose time is within 5
minutes of the candidate. -/
def isDupIn (acc : List FinalEntry) (st : ScheduleStation) (diff : Int) : Bool :=
  acc.any (fun d =>
    d.stationID == st.StationID &&
    d.destination == st.DestinationNameZh &&
    (d.time - diff).natAbs < 5)

/-- Processing of one timetable entry of one station: emit a schedule
entry when the clock time is strictly later than now, at most 60 minutes
later, and no duplicate has been collected. -/
def schedStep (currentMin : Nat) (st : ScheduleStation) (acc : List FinalEntry)
    (t : TimeEntry) : List FinalEntry :=
  let trainMin := t.arrH * 60 + t.arrM
  if trainMin > currentMin ∧ trainMin ≤ currentMin + 60 then
    let diff : Int := (trainMin : Int) - (currentMin : Int)
    if isDupIn acc st diff then acc else acc ++ [schedEntryOf st diff]
  else acc

/-- Processing of one station timetable: skipped entirely when Timetables
is absent. -/
def stationStep (currentMin : Nat) (acc : List FinalEntry) (st : ScheduleStation) :
    List FinalEntry :=
  match st.Timetables with
  | none => acc
  | some ts => ts.foldl (fun a t => schedStep currentMin st a t) acc

/-- calculateData of part_006: all live entries first, then the timetable
backfill with the duplicate suppression. -/
def calculateData (liveBoardData : List LiveItem) (staticTimetable : List ScheduleStation)
    (currentMin : Nat) : List FinalEntry :=
  let finalData := liveBoardData.map liveEntryOf
  staticTimetable.foldl (stationStep currentMin) finalData

/- ===================== C9: snapshot publish machine =====================
A small-step model of how part_006 publishes (lines 84-159, in particular
155-159): finalData is a local array, grown by push operations that never
touch the global cache, and globalCache.data is replaced wholesale by a
single final assignment.  The same build-local-then-assign shape appears in
part_003 updateAll (cache.merged = mergedData).  A reader only ever reads
the published reference. -/

/-- One micro operation of a reconciliation cycle: grow the local buffer,
or publish it wholesale. -/
inductive CacheOp where
  | push (e : FinalEntry)
  | publish
  deriving DecidableEq

/-- The engine state: the published snapshot and the local buffer under
construction. -/
structure EngineState where
  published : List FinalEntry
  building : List FinalEntry
  deriving DecidableEq

/-- Effect of one micro operation. -/
def opStep (s : EngineState) : CacheOp → EngineState
  | .push e => { s with building := s.building ++ [e] }
  | .publish => { s with published := s.building }

/-- Run a list of micro operations. -/
def runOps (s : EngineState) (ops : List CacheOp) : EngineState :=
  ops.foldl opStep s

/-- The micro-operation trace of one reconciliation cycle that produces
the list xs: one push per entry, then one publish. -/
def publishProgram (xs : List FinalEntry) : List CacheOp :=
  xs.map CacheOp.push ++ [CacheOp.publish]

/-- The read path of the query interface: take the current published
reference. -/
def getAll (s : EngineState) : List FinalEntry :=
  s.published

/- ===================== C8: payload unwrapping =====================
Embeds extractJsonArrayFromSoap of src/server.js (lines 335-382) and
parseSoapResponse of src/unnamed/part_000 (lines 59-120).  The two
external parsers the source calls — JSON.parse and the xml2js promise
parser — are taken as oracle parameters (a `none` result models a
throw), so the theorems hold for every behaviour of those parsers. -/

/-- The shape of a JSON.parse result, as far as this code inspects it: an
array, a string, or anything else. -/
inductive JsValue where
  | arr (elems : List String)
  | str (s : String)
  | other
  deriving DecidableEq

/-- normalizeParsed of extractJsonArrayFromSoap: a string is parsed once
more (a throw propagates to the enclosing catch), an array is returned
as-is, anything else becomes the empty array. -/
def normalizeParsed (jsonParse : String → Option JsValue) : JsValue → Option JsValue
  | .str s => jsonParse s
  | .arr xs => some (.arr xs)
  | .other => some (.arr [])

/-- Replace every occurrence of the two-character pattern p1 p2
(non-overlapping, left to right) by rep; models one global regex replace
of an escaped character pair. -/
def replace2 (p1 p2 : Char) (rep : List Char) : List Char → List Char
  | [] => []
  | [c] => [c]
  | c1 :: c2 :: cs =>
    if c1 = p1 ∧ c2 = p2 then rep ++ replace2 p1 p2 rep cs
    else c1 :: replace2 p1 p2 rep (c2 :: cs)
termination_by l => l.length

/-- extractJsonArrayFromSoap of server.js: reject HTML error pages with an
empty array, slice the bracketed JSON text, parse it, on failure retry
after unescaping, and fall back to the empty array. -/
def extractJsonArrayFromSoap (jsonParse : String → Option JsValue)
    (raw : String) (tagName : String) : JsValue :=
  let _ := tagName
  if containsSub raw "<title>請洽系統管理員" || containsSub raw "<html" then .arr []
  else
    match subPos raw.data ['['], lastPos raw.data ']' with
    | some start, some stop =>
      if stop ≤ start then .arr []
      else
        let jsonSlice := (raw.data.drop start).take (stop + 1 - start)
        match (jsonParse (String.mk jsonSlice)).bind (normalizeParsed jsonParse) with
        | some v => v
        | none =>
          let unescaped :=
            replace2 '\\' '\\' ['\\'] (replace2 '\\' '"' ['"'] jsonSlice)
          match (jsonParse (String.mk unescaped)).bind (normalizeParsed jsonParse) with
          | some v => v
          | none => .arr []
    | _, _ => .arr []

/-- An xml2js parse tree, as far as part_000 navigates it. -/
inductive XNode where
  | obj (fields : List (String × XNode))
  | str (s : String)

/-- Field access on a parse tree node. -/
def xField (n : XNode) (key : String) : Option XNode :=
  match n with
  | .obj fields => fields.lookup key
  | .str _ => none

/-- JavaScript truthiness of a possibly-absent node: absent and the empty
text node are falsy. -/
def xTruthy (n : Option XNode) : Bool :=
  match n with
  | none => false
  | some (.str s) => s ≠ ""
  | some (.obj _) => true

/-- The keys of an object node. -/
def xKeys (n : XNode) : List String :=
  match n with
  | .obj fields => fields.map Prod.fst
  | .str _ => []

/-- The parsed-response record of part_000: the raw body, the optional
leading JSON part and the selected SOAP node. -/
structure SoapParsed where
  raw : String
  json : Option JsValue
  soap : XNode

/-- parseSoapResponse of part_000: throw on an HTML error page, extract
the optional leading JSON fragment, require and parse the XML tail,
require the SOAP Envelope/Body, then select the response node named by
the hint.  An `Except.error` models a throw. -/
def parseSoapResponse (xmlParse : String → Option XNode)
    (jsonParse : String → Option JsValue) (rawData : String)
    (responseNameHint : Option String) : Except String SoapParsed :=
  let bodyStr := rawData
  if startsWithJS (trimJS bodyStr) "<!DOCTYPE html" || containsSub bodyStr "<html" then
    .error "TRTC API returned HTML (maybe IP restricted or bad credentials)"
  else
    let chars := bodyStr.data
    let jsonStart := subPos chars "\x7b".data
    let jsonEnd := subPos chars "\x7d</".data
    let jsonPart :=
      match jsonStart, jsonEnd with
      | some a, some b =>
        if a < b then jsonParse (String.mk ((chars.drop a).take (b + 1 - a))) else none
      | _, _ => none
    match subPos chars "<?xml".data with
    | none => .error "No XML found in TRTC API response"
    | some xmlStart =>
      let xmlText := String.mk (chars.drop xmlStart)
      match xmlParse xmlText with
      | none => .error "Failed to parse XML from TRTC API"
      | some parsedXml =>
        let envelope := xField parsedXml "Envelope"
        let body := envelope.bind (fun e => xField e "Body")
        if ¬ xTruthy body then .error "SOAP response has no Body"
        else
          let bodyNode := body.getD (.obj [])
          let soapNode :=
            if jsTruthyS responseNameHint then
              let hintLower := toLowerJS (responseNameHint.getD "")
              match (xKeys bodyNode).find? (fun k => containsSub (toLowerJS k) hintLower) with
              | some key => (xField bodyNode key).getD bodyNode
              | none => bodyNode
            else bodyNode
          .ok { raw := bodyStr, json := jsonPart, soap := soapNode }

/- ===================== helper lemmas ===================== -/

/-- A lookup hit is a member of the association list. -/
theorem lookup_mem_assoc {β : Type} (k : String) (l : List (String × β)) (v : β)
    (h : l.lookup k = some v) : (k, v) ∈ l := by
  induction l with
  | nil => simp [List.lookup] at h
  | cons p l ih =>
    rw [List.lookup] at h
    by_cases hk : k == p.1
    · simp [hk] at h
      subst h
      have : k = p.1 := by simpa using hk
      subst this
      simp
    · simp [hk] at h
      exact List.mem_cons_of_mem _ (ih h)

/-- A key held by some member makes the lookup succeed. -/
theorem lookup_isSome_assoc {β : Type} (k : String) (l : List (String × β)) (v : β)
    (h : (k, v) ∈ l) : ∃ w, l.lookup k = some w := by
  induction l with
  | nil => simp at h
  | cons p l ih =>
    rw [List.lookup]
    by_cases hk : k == p.1
    · exact ⟨p.2, by simp [hk]⟩
    · rcases List.mem_cons.mp h with h | h
      · subst h
        simp at hk
      · simpa [hk] using ih h

/-- Bounds of a left fold of max: the result dominates the start and every
element, and is the start or one of the elements. -/
theorem foldl_max_spec (as : List Int) (a : Int) :
    a ≤ as.foldl max a ∧ (as.foldl max a = a ∨ as.foldl max a ∈ as) ∧
      ∀ v ∈ as, v ≤ as.foldl max a := by
  induction as generalizing a with
  | nil => simp
  | cons b bs ih =>
    rcases ih (max a b) with ⟨h1, h2, h3⟩
    have hfold : List.foldl max a (b :: bs) = List.foldl max (max a b) bs := rfl
    refine ⟨?_, ?_, ?_⟩
    · rw [hfold]
      exact le_trans (le_max_left a b) h1
    · rw [hfold]
      rcases h2 with h2 | h2
      · rw [h2]
        rcases max_choice a b with hm | hm
        · left
          exact hm
        · right
          rw [hm]
          simp
      · right
        exact List.mem_cons_of_mem _ h2
    · intro v hv
      rw [hfold]
      rcases List.mem_cons.mp hv with hv | hv
      · subst hv
        exact le_trans (le_max_right a _) h1
      · exact h3 v hv

/-- Specification of List.max? on integers. -/
theorem max?_spec (ls : List Int) (mx : Int) (h : ls.max? = some mx) :
    mx ∈ ls ∧ ∀ v ∈ ls, v ≤ mx := by
  cases ls with
  | nil => simp [List.max?] at h
  | cons a as =>
    have h' : as.foldl max a = mx := by
      have : (a :: as).max? = some (as.foldl max a) := rfl
      rw [this] at h
      injection h
    rcases foldl_max_spec as a with ⟨h1, h2, h3⟩
    rw [h'] at h1 h2 h3
    constructor
    · rcases h2 with h2 | h2
      · simp [h2]
      · exact List.mem_cons_of_mem _ h2
    · intro v hv
      rcases List.mem_cons.mp hv with hv | hv
      · subst hv
        exact h1
      · exact h3 v hv

/-- A left fold of max equals a value that is an upper bound, a member,
and dominates the start. -/
theorem foldl_max_eq (ls : List Int) (init mx : Int) (hmem : mx ∈ ls)
    (hub : ∀ v ∈ ls, v ≤ mx) (hinit : init ≤ mx) : ls.foldl max init = mx := by
  rcases foldl_max_spec ls init with ⟨h1, h2, h3⟩
  have hle : ls.foldl max init ≤ mx := by
    rcases h2 with h2 | h2
    · omega
    · exact hub _ h2
  have hge : mx ≤ ls.foldl max init := h3 mx hmem
  omega

/- ===================== C3 ===================== -/

/-- C3 counterexample: the countdown text 12:ab contains a colon but its
second part is not numeric, so normalization yields NaN (modelled `none`),
not the far-future sentinel 9999 the claim promises for every unparseable
countdown. -/
theorem c3_countdown_nan_counterexample :
    normalizeCountdown (some "12:ab") = none := by decide

/-- C3 (amended): the arriving-sentinel normalizes to exactly 0; an MM:SS
countdown whose parts parse as non-negative integers normalizes to the
non-negative whole-second value m*60+s; and any other countdown without a
colon (including a bare integer string and an absent countdown) maps to
the far-future sentinel 9999.  (A colon-containing countdown with a
non-numeric part instead yields NaN, see the counterexample.) -/
theorem c3_countdown_normalization :
    (normalizeCountdown (some "列車進站") = some 0) ∧
    (∀ (s p0 p1 : String) (rest : List String) (a b : Int),
      s ≠ "列車進站" → s ≠ "" → containsChar s ':' = true →
      splitOnChar ':' s = p0 :: p1 :: rest →
      parseIntJS p0 = some a → parseIntJS p1 = some b →
      0 ≤ a → 0 ≤ b →
      normalizeCountdown (some s) = some (a * 60 + b) ∧ 0 ≤ a * 60 + b) ∧
    (∀ cd : Option String, cd ≠ some "列車進站" →
      (∀ s, cd = some s → containsChar s ':' = false) →
      normalizeCountdown cd = some 9999) := by
  refine ⟨by decide, ?_, ?_⟩
  · intro s p0 p1 rest a b hs hne hcol hsplit hp0 hp1 ha hb
    constructor
    · simp only [normalizeCountdown, hs, if_neg hs, hne, hcol, hsplit, hp0, hp1]
      simp [hne, hcol]
    · omega
  · intro cd h1 h2
    cases cd with
    | none => rfl
    | some s =>
      have hs : s ≠ "列車進站" := by
        intro h
        exact h1 (by rw [h])
      have hcol : containsChar s ':' = false := h2 s rfl
      simp [normalizeCountdown, hs, hcol]

/-- C3 witness: the countdown 01:28 of the end-to-end example normalizes
to 88 whole seconds, a non-negative value. -/
theorem c3_countdown_witness :
    normalizeCountdown (some "01:28") = some (1 * 60 + 28) ∧ 0 ≤ (1 : Int) * 60 + 28 :=
  c3_countdown_normalization.2.1 "01:28" "01" "28" [] 1 28 (by decide) (by decide)
    (by decide) (by decide) (by decide) (by decide) (by decide) (by decide)

/- ===================== C8 ===================== -/

/-- C8 counterexample: on an HTML error page the part_000 normalizer
parseSoapResponse does not return an empty list — it throws (modelled as
`Except.error`), for every behaviour of the external XML and JSON
parsers (instantiated here with the trivial oracle). -/
theorem c8_parse_soap_html_counterexample :
    parseSoapResponse (fun _ => none) (fun _ => none)
        "<html>err</html>" (some "getTrackInfoResponse") =
      Except.error "TRTC API returned HTML (maybe IP restricted or bad credentials)" := by
  rfl

/-- C8 (amended): the server.js normalizer extractJsonArrayFromSoap,
given any payload detected as an HTML error page, returns the empty array
without throwing, for every behaviour of the JSON parser; the part_000
variant parseSoapResponse instead throws on such payloads before any
parsing (see the counterexample), and its caller turns that throw into a
feed-level failure with an empty item list. -/
theorem c8_html_error_page_empty :
    ∀ (jsonParse : String → Option JsValue) (raw tagName : String),
      containsSub raw "<title>請洽系統管理員" = true ∨ containsSub raw "<html" = true →
      extractJsonArrayFromSoap jsonParse raw tagName = .arr [] := by
  intro jp raw tag h
  unfold extractJsonArrayFromSoap
  rcases h with h | h <;> simp [h]

/-- C8 witness: a concrete HTML payload yields the empty array. -/
theorem c8_html_error_page_witness :
    extractJsonArrayFromSoap (fun _ => none) "<html><body>oops</body></html>" "TrackInfo"
      = .arr [] :=
  c8_html_error_page_empty (fun _ => none) "<html><body>oops</body></html>" "TrackInfo"
    (Or.inr (by decide))

/- ===================== C4 ===================== -/

/-- The parsed car levels a part_004 crowding row contributes to its
maxLevel loop: one value per truthy car field, with non-numeric and zero
values falling back to 1. -/
def carLevelsOf (t : CrowdTrain) : List Int :=
  (carFields t).filterMap
    (fun c => if jsTruthyS c then some (jsOrIntD (parseIntJS (c.getD "")) 1) else none)

/-- The conditional max fold over optional car fields agrees with the max
fold over the filtered parsed values, for any start. -/
theorem foldl_carstep_eq (os : List (Option String)) (init : Int) :
    os.foldl
        (fun acc c =>
          if jsTruthyS c then max acc (jsOrIntD (parseIntJS (c.getD "")) 1) else acc)
        init
      = (os.filterMap
          (fun c =>
            if jsTruthyS c then some (jsOrIntD (parseIntJS (c.getD "")) 1) else none)).foldl
          max init := by
  induction os generalizing init with
  | nil => rfl
  | cons o os ih =>
    by_cases h : jsTruthyS o
    · simp [h, List.foldl, List.filterMap, ih]
    · simp [h, List.foldl, List.filterMap, ih]

/-- The maxLevel loop is the fold of max over the parsed car levels. -/
theorem maxCarLevel_eq_foldl (t : CrowdTrain) :
    maxCarLevel t = (carLevelsOf t).foldl max 1 := by
  unfold maxCarLevel carLevelsOf
  exact foldl_carstep_eq (carFields t) 1

/-- The sequential level assignments of part_004 compute the fixed
ordinal-to-label table. -/
theorem levelStrOf_eq_ordinalLabel (m : Int) : levelStrOf m = ordinalLabel m := by
  unfold levelStrOf ordinalLabel
  split_ifs <;> rfl

/-- C4: for every crowd record (its car levels being the small positive
ordinals of the data model), the aggregated crowd level — both the
server-side part_004 aggregation and the part_005 calculatedLevel of a
record without an explicit congestion level — equals the fixed
ordinal-to-label table applied to the maximum car level. -/
theorem c4_crowd_aggregation :
    ∀ (t : CrowdTrain) (d : BackendCrowdData) (ls : List Int) (mx : Int),
      carLevelsOf t = ls →
      levelsOf d = ls →
      d.congestionLevel = none →
      (∀ v ∈ ls, 1 ≤ v) →
      ls.max? = some mx →
      crowdLabelOf t = ordinalLabel mx ∧ calculatedLevel d = ordinalLabel mx := by
  intro t d ls mx hcar hlev hcong hpos hmax
  rcases max?_spec ls mx hmax with ⟨hmem, hub⟩
  have h1 : (1 : Int) ≤ mx := hpos mx hmem
  constructor
  · unfold crowdLabelOf
    rw [maxCarLevel_eq_foldl, hcar, foldl_max_eq ls 1 mx hmem hub h1,
      levelStrOf_eq_ordinalLabel]
  · unfold calculatedLevel
    rw [hcong, hlev, hmax]
    unfold ordinalLabel
    simp only [ge_iff_le]

/-- C4 witness: car levels 1, 3, 2 aggregate, in both implementations, to
the label of 3, which is HIGH. -/
theorem c4_crowd_aggregation_witness :
    crowdLabelOf
        { StationID := some "BL12", Car1 := some "1", Car2 := some "3",
          Car3 := some "2", Car4 := none, Car5 := none, Car6 := none }
      = ordinalLabel 3 ∧
    calculatedLevel
        { congestionLevel := none, level1 := some "1", level2 := some "3",
          level3 := some "2", level4 := none, level5 := none, level6 := none }
      = ordinalLabel 3 :=
  c4_crowd_aggregation
    { StationID := some "BL12", Car1 := some "1", Car2 := some "3",
      Car3 := some "2", Car4 := none, Car5 := none, Car6 := none }
    { congestionLevel := none, level1 := some "1", level2 := some "3",
      level3 := some "2", level4 := none, level5 := none, level6 := none }
    [1, 3, 2] 3 (by decide) (by decide) (by decide) (by decide) (by decide)

/- ===================== C5 ===================== -/

/-- Every entry of the wenhuMap fold is an initial entry or a crowd row
of the feed indexed under its own composite key. -/
theorem wenhuFold_mem (ws : List BRWeightRow) (m : List (String × BRWeightRow))
    (k : String) (w : BRWeightRow)
    (h : (k, w) ∈ ws.foldl
        (fun m w =>
          match crowdKeyOf w with
          | some k => (k, w) :: m
          | none => m) m) :
    (k, w) ∈ m ∨ (w ∈ ws ∧ crowdKeyOf w = some k) := by
  induction ws generalizing m with
  | nil => exact Or.inl h
  | cons w' ws ih =>
    rcases ih _ h with h' | h'
    · cases hk : crowdKeyOf w' with
      | none =>
        rw [List.foldl_cons, hk] at h
        simp only [hk] at h'
        exact Or.inl h'
      | some k' =>
        simp only [hk] at h'
        rcases List.mem_cons.mp h' with h' | h'
        · injection h' with h1 h2
          subst h1
          subst h2
          exact Or.inr ⟨List.mem_cons_self _ _, hk⟩
        · exact Or.inl h'
    · exact Or.inr ⟨List.mem_cons_of_mem _ h'.1, h'.2⟩

/-- The wenhuMap fold never drops initial entries. -/
theorem wenhuFold_mono (ws : List BRWeightRow) (m : List (String × BRWeightRow))
    (p : String × BRWeightRow) (h : p ∈ m) :
    p ∈ ws.foldl
        (fun m w =>
          match crowdKeyOf w with
          | some k => (k, w) :: m
          | none => m) m := by
  induction ws generalizing m with
  | nil => exact h
  | cons w' ws ih =>
    rw [List.foldl_cons]
    apply ih
    cases hk : crowdKeyOf w' with
    | none => simpa [hk] using h
    | some k' => simp [hk, h]

/-- A crowd row with a composite key ends up indexed by the wenhuMap fold,
for any start. -/
theorem wenhuFold_complete (ws : List BRWeightRow)
    (m : List (String × BRWeightRow)) (k : String) (w : BRWeightRow)
    (hmem : w ∈ ws) (hkey : crowdKeyOf w = some k) :
    (k, w) ∈ ws.foldl
        (fun m w =>
          match crowdKeyOf w with
          | some k => (k, w) :: m
          | none => m) m := by
  induction ws generalizing m with
  | nil => simp at hmem
  | cons w' ws ih =>
    rw [List.foldl_cons]
    rcases List.mem_cons.mp hmem with h | h
    · subst h
      rw [hkey]
      exact wenhuFold_mono ws _ _ (List.mem_cons_self _ _)
    · exact ih _ h

/-- A crowd row with a composite key is indexed in the wenhuMap. -/
theorem wenhuMap_complete (ws : List BRWeightRow) (k : String) (w : BRWeightRow)
    (hmem : w ∈ ws) (hkey : crowdKeyOf w = some k) : (k, w) ∈ buildWenhuMap ws :=
  wenhuFold_complete ws [] k w hmem hkey

/-- The Wenhu matching branch in terms of the track composite key. -/
theorem wenhuCrowdFor_eq (t : TrackRowP1) (wBr : List BRWeightRow) :
    wenhuCrowdFor t wBr = (trackKeyOf t).bind (fun k => (buildWenhuMap wBr).lookup k) := by
  by_cases h : normalizeStation t.StationName ≠ "" ∧ dirOfDest t.DestinationName ≠ ""
  · simp [wenhuCrowdFor, trackKeyOf, h]
  · simp [wenhuCrowdFor, trackKeyOf, h]

/-- C5: for a Wenhu-classified track record, a crowd record is attached
exactly when some crowd record of the feed carries the same composite
station_direction key as the track record resolves to: every attached
record is a feed record with the same key as the track record (in
particular never one whose direction resolves to the opposite terminus),
a matching record guarantees an attachment, and with no matching record
nothing is attached. -/
theorem c5_directional_matching :
    ∀ (t : TrackRowP1) (wBr : List BRWeightRow),
      isWenhu t = true →
      (∀ w, wenhuCrowdFor t wBr = some w →
          w ∈ wBr ∧ crowdKeyOf w = trackKeyOf t ∧ (trackKeyOf t).isSome = true) ∧
      ((∃ w, w ∈ wBr ∧ crowdKeyOf w = trackKeyOf t ∧ (trackKeyOf t).isSome = true) →
          ∃ w, wenhuCrowdFor t wBr = some w) ∧
      ((∀ w, w ∈ wBr → crowdKeyOf w = trackKeyOf t → trackKeyOf t = none) →
          wenhuCrowdFor t wBr = none) := by
  intro t wBr _
  refine ⟨?_, ?_, ?_⟩
  · intro w hw
    rw [wenhuCrowdFor_eq] at hw
    cases hk : trackKeyOf t with
    | none => rw [hk] at hw; simp at hw
    | some k =>
      rw [hk] at hw
      simp only [Option.some_bind] at hw
      have hmem := lookup_mem_assoc k (buildWenhuMap wBr) w hw
      rcases wenhuFold_mem wBr [] k w hmem with h | h
      · simp at h
      · exact ⟨h.1, by rw [h.2], rfl⟩
  · rintro ⟨w, hmem, hkey, hsome⟩
    rw [wenhuCrowdFor_eq]
    cases hk : trackKeyOf t with
    | none => rw [hk] at hsome; simp at hsome
    | some k =>
      rw [hk] at hkey
      simp only [Option.some_bind]
      exact lookup_isSome_assoc k (buildWenhuMap wBr) w (wenhuMap_complete wBr k w hmem hkey)
  · intro hnone
    rw [wenhuCrowdFor_eq]
    cases hk : trackKeyOf t with
    | none => rfl
    | some k =>
      simp only [Option.some_bind]
      cases hl : (buildWenhuMap wBr).lookup k with
      | none => rfl
      | some w =>
        have hmem := lookup_mem_assoc k (buildWenhuMap wBr) w hl
        rcases wenhuFold_mem wBr [] k w hmem with h | h
        · simp at h
        · have := hnone w h.1 (by rw [h.2, hk])
          rw [hk] at this
          simp at this

/-- C5 witness: a BR crowd record at 大安 with the up (toward Zoo)
indicator is attached to a track record at 大安 bound for the Zoo
terminus, and is not attached to one bound for the Nangang terminus. -/
theorem c5_directional_matching_witness :
    (∃ w, wenhuCrowdFor
        { TrainNumber := none, StationName := some "大安", DestinationName := "動物園",
          LineId := some "BR", CountDown := some "01:30", NowDateTime := none }
        [{ TrainNumber := none, StationName := some "大安", DU := some "上行" }] = some w) ∧
    wenhuCrowdFor
        { TrainNumber := none, StationName := some "大安", DestinationName := "南港展覽館",
          LineId := some "BR", CountDown := some "02:30", NowDateTime := none }
        [{ TrainNumber := none, StationName := some "大安", DU := some "上行" }] = none :=
  ⟨(c5_directional_matching
      { TrainNumber := none, StationName := some "大安", DestinationName := "動物園",
        LineId := some "BR", CountDown := some "01:30", NowDateTime := none }
      [{ TrainNumber := none, StationName := some "大安", DU := some "上行" }]
      (by decide)).2.1
    ⟨{ TrainNumber := none, StationName := some "大安", DU := some "上行" },
      by decide, by decide, by decide⟩,
   (c5_directional_matching
      { TrainNumber := none, StationName := some "大安", DestinationName := "南港展覽館",
        LineId := some "BR", CountDown := some "02:30", NowDateTime := none }
      [{ TrainNumber := none, StationName := some "大安", DU := some "上行" }]
      (by decide)).2.2
    (by decide)⟩

/- ===================== C6 / C10 ===================== -/

/-- Every entry of the weightByTrain index is a weight row of the feed
indexed under exactly its own trimmed train number. -/
theorem weightByTrain_mem (W : List WeightRow) (k : String) (v : WeightRow)
    (h : (k, v) ∈ weightByTrain W) : v ∈ W ∧ trimmedNum v.TrainNumber = k := by
  rw [weightByTrain] at h
  revert h
  suffices H : ∀ (m : List (String × WeightRow)),
      (k, v) ∈ W.foldl
          (fun m row =>
            let num := trimmedNum row.TrainNumber
            if num ≠ "" then (num, row) :: m else m) m →
      (k, v) ∈ m ∨ (v ∈ W ∧ trimmedNum v.TrainNumber = k) by
    intro h
    rcases H [] h with h' | h'
    · simp at h'
    · exact h'
  induction W with
  | nil =>
    intro m h
    exact Or.inl h
  | cons r rs ih =>
    intro m h
    rw [List.foldl_cons] at h
    rcases ih _ h with h' | h'
    · by_cases hr : trimmedNum r.TrainNumber ≠ ""
      · simp only [if_pos hr] at h'
        rcases List.mem_cons.mp h' with h' | h'
        · injection h' with h1 h2
          subst h2
          exact Or.inr ⟨List.mem_cons_self _ _, h1.symm⟩
        · exact Or.inl h'
      · simp only [if_neg hr] at h'
        exact Or.inl h'
    · exact Or.inr ⟨List.mem_cons_of_mem _ h'.1, h'.2⟩

/-- C6 counterexample: a track train number 032 and a crowd train number
32 differ only in zero padding; the merge attaches no crowd record, so the
claimed zero-padding retry does not happen. -/
theorem c6_zero_padding_counterexample :
    (mergeTrackAndWeight
        [{ TrainNumber := some "032", StationName := some "台北車站",
           DestinationName := some "淡水", CountDown := some "02:00", NowDateTime := none }]
        [{ TrainNumber := some "32", StationID := some "R10",
           StationName := some "台北車站" }]).map
      (fun e => e.rawCrowd) = [none] := by decide

/-- C6 (amended): train id matching trims both ids and uses only a direct
lookup of the exact trimmed string — any attached crowd row carries a
trimmed train number literally equal to the trimmed track train number, so
no zero-padded or zero-stripped variant is ever matched. -/
theorem c6_exact_trim_matching :
    ∀ (T : List TrackRow) (W : List WeightRow) (e : MergedTrain) (w : WeightRow),
      e ∈ mergeTrackAndWeight T W → e.rawCrowd = some w →
      w ∈ W ∧ trimmedNum w.TrainNumber = e.trainNumber := by
  intro T W e w he hw
  unfold mergeTrackAndWeight at he
  rcases List.mem_map.mp he with ⟨row, _, hrow⟩
  subst hrow
  simp only at hw
  have := weightByTrain_mem W (trimmedNum row.TrainNumber) w
    (lookup_mem_assoc _ _ _ hw)
  exact ⟨this.1, this.2⟩

/-- C6 witness: identical trimmed numbers do match, and the attached row
is the feed row with that exact number. -/
theorem c6_exact_trim_matching_witness :
    ({ TrainNumber := some "123", StationID := some "BL12",
       StationName := some "台北車站" } : WeightRow) ∈
        [({ TrainNumber := some "123", StationID := some "BL12",
            StationName := some "台北車站" } : WeightRow)] ∧
      trimmedNum (some "123") = "123" :=
  c6_exact_trim_matching
    [{ TrainNumber := some "123", StationName := some "台北車站",
       DestinationName := some "淡水", CountDown := some "02:00", NowDateTime := none }]
    [{ TrainNumber := some "123", StationID := some "BL12",
       StationName := some "台北車站" }]
    { trainNumber := "123", stationName := some "台北車站",
      destinationName := some "淡水", countDown := some "02:00", nowDateTime := none,
      rawTrack := { TrainNumber := some "123", StationName := some "台北車站",
                    DestinationName := some "淡水", CountDown := some "02:00",
                    NowDateTime := none },
      rawCrowd := some { TrainNumber := some "123", StationID := some "BL12",
                         StationName := some "台北車站" } }
    { TrainNumber := some "123", StationID := some "BL12",
      StationName := some "台北車站" }
    (by decide) (by decide)

/-- C10: the track-and-crowd merge emits exactly one entry per track row,
in track order (their trimmed train numbers agree position by position),
and a crowd row whose trimmed train number matches no track row
contributes no entry: crowd-only trains never appear. -/
theorem c10_merge_shape :
    ∀ (T : List TrackRow) (W : List WeightRow),
      (mergeTrackAndWeight T W).length = T.length ∧
      (mergeTrackAndWeight T W).map (fun e => e.trainNumber)
        = T.map (fun r => trimmedNum r.TrainNumber) ∧
      (∀ w ∈ W,
        trimmedNum w.TrainNumber ∉ T.map (fun r => trimmedNum r.TrainNumber) →
        ∀ e ∈ mergeTrackAndWeight T W, e.trainNumber ≠ trimmedNum w.TrainNumber) := by
  intro T W
  refine ⟨?_, ?_, ?_⟩
  · unfold mergeTrackAndWeight
    simp
  · unfold mergeTrackAndWeight
    rw [List.map_map]
    rfl
  · intro w _ hnot e he
    intro hcontra
    apply hnot
    unfold mergeTrackAndWeight at he
    rcases List.mem_map.mp he with ⟨row, hrowT, hrow⟩
    subst hrow
    simp only at hcontra
    rw [← hcontra]
    exact List.mem_map.mpr ⟨row, hrowT, rfl⟩

/-- C10 witness: with one track row and one crowd-only row, the merge has
one entry, the train numbers line up with the track list, and the
crowd-only train 999 appears in no entry. -/
theorem c10_merge_shape_witness :
    (mergeTrackAndWeight
        [{ TrainNumber := some "123", StationName := some "台北車站",
           DestinationName := some "淡水", CountDown := some "02:00", NowDateTime := none }]
        [{ TrainNumber := some "999", StationID := some "BL12",
           StationName := some "台北車站" }]).length = 1 ∧
    ∀ e ∈ mergeTrackAndWeight
        [{ TrainNumber := some "123", StationName := some "台北車站",
           DestinationName := some "淡水", CountDown := some "02:00", NowDateTime := none }]
        [{ TrainNumber := some "999", StationID := some "BL12",
           StationName := some "台北車站" }],
      e.trainNumber ≠ trimmedNum (some "999") :=
  ⟨(c10_merge_shape
      [{ TrainNumber := some "123", StationName := some "台北車站",
         DestinationName := some "淡水", CountDown := some "02:00", NowDateTime := none }]
      [{ TrainNumber := some "999", StationID := some "BL12",
         StationName := some "台北車站" }]).1,
   (c10_merge_shape
      [{ TrainNumber := some "123", StationName := some "台北車站",
         DestinationName := some "淡水", CountDown := some "02:00", NowDateTime := none }]
      [{ TrainNumber := some "999", StationID := some "BL12",
         StationName := some "台北車站" }]).2.2
     { TrainNumber := some "999", StationID := some "BL12",
       StationName := some "台北車站" }
     (by decide) (by decide)⟩

/- ===================== C2 ===================== -/

/-- C2: evaluation of the station query at the failing input.  The query
for BL12 (台北車站) is given a track list whose only row observes train
123 at a different station (南港) and a crowd list with a crowd-only
record for train 123 at BL12.  The emitted arrival for BL12 carries the
countdown 03:00 borrowed from the track record of the other station,
where the specification requires a null countdown for crowd-only
records. -/
theorem c2_borrowed_countdown_eval :
    (trainsByStationId "BL12"
        [{ TrainNumber := some "123", StationName := some "南港",
           DestinationName := some "頂埔", CountDown := some "03:00",
           NowDateTime := none }]
        [{ TrainNumber := some "123", StationID := some "BL12",
           StationName := some "台北車站" }]).map
      (fun e => (e.stationId, e.countDown)) = [("BL12", some "03:00")] := by decide

/- ===================== C1 / C7 ===================== -/

/-- A property preserved by every step of a left fold holds of its
result. -/
theorem foldl_inv {α β : Type} (P : β → Prop) (f : β → α → β) (l : List α) (b : β)
    (hb : P b) (hf : ∀ b a, P b → P (f b a)) : P (l.foldl f b) := by
  induction l generalizing b with
  | nil => exact hb
  | cons a l ih => exact ih _ (hf b a hb)

/-- Every entry of a live map has source kind live. -/
theorem liveEntry_type (item : LiveItem) : (liveEntryOf item).type = "live" := rfl

/-- The C1 invariant: the live entry stays collected, and no collected
schedule entry at its station and destination is within the dedup
tolerance of it. -/
def c1Inv (e : FinalEntry) (acc : List FinalEntry) : Prop :=
  e ∈ acc ∧
    ∀ d ∈ acc, d.type = "schedule" → d.stationID = e.stationID →
      d.destination = e.destination → ¬ (e.time - d.time).natAbs < 5

/-- One timetable entry preserves the C1 invariant: a schedule entry that
would violate it is suppressed by the duplicate check, because the live
entry itself makes isDupIn true. -/
theorem c1Inv_schedStep (e : FinalEntry) (cm : Nat) (st : ScheduleStation)
    (acc : List FinalEntry) (t : TimeEntry) (h : c1Inv e acc) :
    c1Inv e (schedStep cm st acc t) := by
  dsimp only [schedStep]
  split_ifs with hw hdup
  · exact h
  · refine ⟨List.mem_append_left _ h.1, ?_⟩
    intro d hd hty hsid hdest hclose
    rcases List.mem_append.mp hd with hd | hd
    · exact h.2 d hd hty hsid hdest hclose
    · have hde : d = schedEntryOf st ((t.arrH * 60 + t.arrM : Nat) - (cm : Int)) :=
        List.mem_singleton.mp hd
      apply hdup
      rw [isDupIn, List.any_eq_true]
      refine ⟨e, h.1, ?_⟩
      have h1 : st.StationID = e.stationID := by rw [← hsid, hde]; rfl
      have h2 : st.DestinationNameZh = e.destination := by rw [← hdest, hde]; rfl
      rw [hde] at hclose
      simp only [Bool.and_eq_true, beq_iff_eq, decide_eq_true_eq]
      exact ⟨⟨h1.symm, h2.symm⟩, hclose⟩
  · exact h

/-- One station timetable preserves the C1 invariant. -/
theorem c1Inv_stationStep (e : FinalEntry) (cm : Nat) (acc : List FinalEntry)
    (st : ScheduleStation) (h : c1Inv e acc) : c1Inv e (stationStep cm acc st) := by
  rw [stationStep]
  cases st.Timetables with
  | none => exact h
  | some ts => exact foldl_inv _ _ ts acc h (fun b a hb => c1Inv_schedStep e cm st b a hb)

/-- C1: for every live arrival, reconciliation emits its live-sourced
entry, and no schedule-sourced entry at the same station and destination
whose stored ETA is within the dedup tolerance (5 minutes) of the live
ETA is emitted — of such a live/scheduled pair exactly the live one
appears. -/
theorem c1_live_schedule_dedup :
    ∀ (live : List LiveItem) (tt : List ScheduleStation) (cm : Nat) (item : LiveItem),
      item ∈ live →
      liveEntryOf item ∈ calculateData live tt cm ∧
      ∀ d ∈ calculateData live tt cm,
        d.type = "schedule" → d.stationID = (liveEntryOf item).stationID →
        d.destination = (liveEntryOf item).destination →
        ¬ ((liveEntryOf item).time - d.time).natAbs < 5 := by
  intro live tt cm item hitem
  have hinit : c1Inv (liveEntryOf item) (live.map liveEntryOf) := by
    constructor
    · exact List.mem_map_of_mem _ hitem
    · intro d hd hty _ _ _
      rcases List.mem_map.mp hd with ⟨x, _, hx⟩
      rw [← hx] at hty
      rw [liveEntry_type] at hty
      exact absurd hty (by decide)
  have := foldl_inv (c1Inv (liveEntryOf item)) (stationStep cm) tt _ hinit
    (fun b a hb => c1Inv_stationStep (liveEntryOf item) cm b a hb)
  exact this

/-- C1 witness: the dedup law instance.  A live arrival at R10 toward
淡水 with a 300 second ETA (stored as 5 minutes) and a scheduled arrival
at the same station and destination six minutes out (360 seconds, within
the tolerance) yield the live entry and suppress the scheduled one. -/
theorem c1_live_schedule_dedup_witness :
    liveEntryOf
        { StationID := "R10", StationNameZh := "台北車站", DestinationNameZh := "淡水",
          LineNO := some "R", LineNo := none, EstimateTime := some 300 }
      ∈ calculateData
          [{ StationID := "R10", StationNameZh := "台北車站", DestinationNameZh := "淡水",
             LineNO := some "R", LineNo := none, EstimateTime := some 300 }]
          [{ StationID := "R10", StationNameZh := "台北車站", DestinationNameZh := "淡水",
             LineNO := some "R", LineNo := none,
             Timetables := some [{ arrH := 10, arrM := 6 }] }]
          600 ∧
    ∀ d ∈ calculateData
        [{ StationID := "R10", StationNameZh := "台北車站", DestinationNameZh := "淡水",
           LineNO := some "R", LineNo := none, EstimateTime := some 300 }]
        [{ StationID := "R10", StationNameZh := "台北車站", DestinationNameZh := "淡水",
           LineNO := some "R", LineNo := none,
           Timetables := some [{ arrH := 10, arrM := 6 }] }]
        600,
      d.type = "schedule" →
      d.stationID = (liveEntryOf
        { StationID := "R10", StationNameZh := "台北車站", DestinationNameZh := "淡水",
          LineNO := some "R", LineNo := none, EstimateTime := some 300 }).stationID →
      d.destination = (liveEntryOf
        { StationID := "R10", StationNameZh := "台北車站", DestinationNameZh := "淡水",
          LineNO := some "R", LineNo := none, EstimateTime := some 300 }).destination →
      ¬ ((liveEntryOf
        { StationID := "R10", StationNameZh := "台北車站", DestinationNameZh := "淡水",
          LineNO := some "R", LineNo := none, EstimateTime := some 300 }).time
            - d.time).natAbs < 5 :=
  c1_live_schedule_dedup
    [{ StationID := "R10", StationNameZh := "台北車站", DestinationNameZh := "淡水",
       LineNO := some "R", LineNo := none, EstimateTime := some 300 }]
    [{ StationID := "R10", StationNameZh := "台北車站", DestinationNameZh := "淡水",
       LineNO := some "R", LineNo := none,
       Timetables := some [{ arrH := 10, arrM := 6 }] }]
    600
    { StationID := "R10", StationNameZh := "台北車站", DestinationNameZh := "淡水",
      LineNO := some "R", LineNo := none, EstimateTime := some 300 }
    (by decide)

/-- C7 counterexample: with the clock at 23:30 (minute 1410), a timetable
entry at 00:10 — forty minutes ahead across midnight, inside the one-hour
lookahead window — is not treated as a next-day future arrival: it is
dropped and the reconciled list is empty, where the claim requires it to
be emitted with a future non-negative ETA. -/
theorem c7_midnight_drop_counterexample :
    calculateData []
        [{ StationID := "R10", StationNameZh := "台北車站", DestinationNameZh := "淡水",
           LineNO := some "R", LineNo := none,
           Timetables := some [{ arrH := 0, arrM := 10 }] }]
        1410 = [] := by decide

/-- C7 (amended): every emitted schedule-sourced entry has a strictly
positive ETA of at most 60 minutes; a schedule entry whose clock time is
not strictly later than now in the service day — including an
after-midnight time that would fall inside the lookahead window — is
dropped rather than emitted with a negative or next-day ETA. -/
theorem c7_schedule_window :
    ∀ (live : List LiveItem) (tt : List ScheduleStation) (cm : Nat),
      ∀ d ∈ calculateData live tt cm,
        d.type = "schedule" → 0 < d.time ∧ d.time ≤ 60 := by
  intro live tt cm
  have hstep : ∀ (acc : List FinalEntry) (st : ScheduleStation),
      (∀ d ∈ acc, d.type = "schedule" → 0 < d.time ∧ d.time ≤ 60) →
      ∀ d ∈ stationStep cm acc st, d.type = "schedule" → 0 < d.time ∧ d.time ≤ 60 := by
    intro acc st hacc
    rw [stationStep]
    cases st.Timetables with
    | none => exact hacc
    | some ts =>
      refine foldl_inv
        (fun acc => ∀ d ∈ acc, d.type = "schedule" → 0 < d.time ∧ d.time ≤ 60)
        _ ts acc hacc ?_
      intro b t hb
      dsimp only [schedStep]
      split_ifs with hw hdup
      · exact hb
      · intro d hd hty
        rcases List.mem_append.mp hd with hd | hd
        · exact hb d hd hty
        · have hde : d = schedEntryOf st ((t.arrH * 60 + t.arrM : Nat) - (cm : Int)) :=
            List.mem_singleton.mp hd
          rw [hde]
          show 0 < ((t.arrH * 60 + t.arrM : Nat) : Int) - (cm : Int) ∧
            ((t.arrH * 60 + t.arrM : Nat) : Int) - (cm : Int) ≤ 60
          omega
      · exact hb
  refine foldl_inv
    (fun acc => ∀ d ∈ acc, d.type = "schedule" → 0 < d.time ∧ d.time ≤ 60)
    (stationStep cm) tt _ ?_ hstep
  intro d hd hty
  rcases List.mem_map.mp hd with ⟨x, _, hx⟩
  rw [← hx] at hty
  rw [liveEntry_type] at hty
  exact absurd hty (by decide)

/-- C7 witness: a timetable entry thirty minutes ahead is emitted with a
positive ETA inside the window. -/
theorem c7_schedule_window_witness :
    0 < (schedEntryOf
        { StationID := "R10", StationNameZh := "台北車站", DestinationNameZh := "淡水",
          LineNO := some "R", LineNo := none,
          Timetables := some [{ arrH := 10, arrM := 30 }] } 30).time ∧
    (schedEntryOf
        { StationID := "R10", StationNameZh := "台北車站", DestinationNameZh := "淡水",
          LineNO := some "R", LineNo := none,
          Timetables := some [{ arrH := 10, arrM := 30 }] } 30).time ≤ 60 :=
  c7_schedule_window []
    [{ StationID := "R10", StationNameZh := "台北車站", DestinationNameZh := "淡水",
       LineNO := some "R", LineNo := none,
       Timetables := some [{ arrH := 10, arrM := 30 }] }]
    600
    (schedEntryOf
      { StationID := "R10", StationNameZh := "台北車站", DestinationNameZh := "淡水",
        LineNO := some "R", LineNo := none,
        Timetables := some [{ arrH := 10, arrM := 30 }] } 30)
    (by decide) (by decide)

/- ===================== C9 ===================== -/

/-- Running only push operations never changes the published snapshot and
appends to the local buffer. -/
theorem runOps_pushes (es : List FinalEntry) (s : EngineState) :
    runOps s (es.map CacheOp.push)
      = { published := s.published, building := s.building ++ es } := by
  induction es generalizing s with
  | nil => simp [runOps]
  | cons e es ih =>
    rw [List.map_cons]
    show runOps (opStep s (CacheOp.push e)) (es.map CacheOp.push) = _
    rw [ih]
    simp [opStep]

/-- C9: a read issued at any point of a reconciliation cycle — modelled as
the push-then-publish micro-operation trace over the list calculateData
produces — observes either the previous complete snapshot or the new
complete one, never a mixed list: the local buffer is invisible until the
single publish step replaces the snapshot reference wholesale. -/
theorem c9_snapshot_atomicity :
    ∀ (live : List LiveItem) (tt : List ScheduleStation) (cm : Nat)
      (old : List FinalEntry) (k : Nat),
      k ≤ (publishProgram (calculateData live tt cm)).length →
      getAll (runOps { published := old, building := [] }
          ((publishProgram (calculateData live tt cm)).take k)) = old ∨
      getAll (runOps { published := old, building := [] }
          ((publishProgram (calculateData live tt cm)).take k))
        = calculateData live tt cm := by
  intro live tt cm old k hk
  set xs := calculateData live tt cm with hxs
  rw [publishProgram] at hk ⊢
  by_cases hlen : k ≤ xs.length
  · left
    rw [List.take_append_of_le_length (by simpa using hlen), ← List.map_take,
      runOps_pushes]
    rfl
  · right
    have hlen' : (xs.map CacheOp.push ++ [CacheOp.publish]).length = xs.length + 1 := by
      simp
    have hk' : k = xs.length + 1 := by
      simp at hk
      omega
    rw [hk', ← hlen', List.take_length]
    rw [runOps, List.foldl_append]
    show getAll (opStep (runOps _ (xs.map CacheOp.push)) CacheOp.publish) = xs
    rw [runOps_pushes]
    simp [opStep, getAll]

/-- C9 witness: one step into a publish of a one-entry reconciliation the
reader still sees the old snapshot, in this instance the empty one. -/
theorem c9_snapshot_atomicity_witness :
    getAll (runOps { published := ([] : List FinalEntry), building := [] }
        ((publishProgram (calculateData
            [{ StationID := "R10", StationNameZh := "台北車站",
               DestinationNameZh := "淡水", LineNO := some "R", LineNo := none,
               EstimateTime := some 300 }] [] 600)).take 1)) = [] ∨
    getAll (runOps { published := ([] : List FinalEntry), building := [] }
        ((publishProgram (calculateData
            [{ StationID := "R10", StationNameZh := "台北車站",
               DestinationNameZh := "淡水", LineNO := some "R", LineNo := none,
               EstimateTime := some 300 }] [] 600)).take 1))
      = calculateData
          [{ StationID := "R10", StationNameZh := "台北車站",
             DestinationNameZh := "淡水", LineNO := some "R", LineNo := none,
             EstimateTime := some 300 }] [] 600 :=
  c9_snapshot_atomicity
    [{ StationID := "R10", StationNameZh := "台北車站", DestinationNameZh := "淡水",
       LineNO := some "R", LineNo := none, EstimateTime := some 300 }]
    [] 600 [] 1 (by decide)

end MRT
